import Mathlib

/-!
Verification of the ChatWait streaming session core.

This file shallowly embeds the streaming components of the backend:

* `ChatAgentService.run_streaming` (services/chat_agent.py): turns a model
  runner's delta sequence into a list of envelope events (token / end / error),
  filtering whitespace-only deltas and numbering tokens from the caller's
  resume offset.
* `StreamingService.create_stream` (services/streaming_service.py): registers
  a session keyed by a connection id derived from the context id and the
  event-loop clock reading, converts envelope events into SSE frames, updates
  the registry entry per event, and unconditionally deletes the entry in a
  `finally` block.
* `StreamingService.cleanup_abandoned_connections`: the reaper sweep.
* `StreamingService._format_sse_event` together with `json.dumps`: the wire
  encoding of one envelope into one `data: <json>` frame.

The model runner is modelled by the list of deltas it yields followed by its
outcome: `Except.ok final` (normal completion carrying the accumulated final
output) or `Except.error e` (an exception whose Python `str(e)` text is `e`).
Clock readings from `asyncio.get_event_loop().time()` are modelled as natural
numbers supplied explicitly as inputs.
-/

namespace ChatWait

/-- Decimal digit characters, used both for JSON `\u00XX` escapes and for
decimal rendering of numbers (mirrors Python's formatting of integers). -/
def digChar : Nat → Char
  | 0 => '0'
  | 1 => '1'
  | 2 => '2'
  | 3 => '3'
  | 4 => '4'
  | 5 => '5'
  | 6 => '6'
  | 7 => '7'
  | 8 => '8'
  | 9 => '9'
  | 10 => 'a'
  | 11 => 'b'
  | 12 => 'c'
  | 13 => 'd'
  | 14 => 'e'
  | 15 => 'f'
  | _ => '*'

/-- Numeric value of a digit character (inverse of `digChar` on digits). -/
def digVal (c : Char) : Nat := c.toNat - '0'.toNat

/-- Fuel-driven decimal rendering of a natural number (least significant digit
computed last, as Python's `str`/f-string formatting of a number). -/
def natReprAux : Nat → Nat → List Char
  | 0, _ => []
  | fuel + 1, n =>
    if n < 10 then [digChar n]
    else natReprAux fuel (n / 10) ++ [digChar (n % 10)]

/-- Decimal rendering of a natural number as a string. -/
def natRepr (n : Nat) : String := ⟨natReprAux (n + 1) n⟩

/-- Value of a digit list read most-significant-first (used to show decimal
rendering is injective). -/
def parseDigits (l : List Char) : Nat := l.foldl (fun acc c => acc * 10 + digVal c) 0

/-- Python `str.strip` whitespace characters (space, tab, newline, carriage
return, vertical tab, form feed). -/
def isPyWhitespace (c : Char) : Bool :=
  c = ' ' || c = '\t' || c = '\n' || c = '\r' || c = Char.ofNat 11 || c = Char.ofNat 12

/-- Python `str.strip()`: drop leading and trailing whitespace. -/
def pyStrip (s : String) : String :=
  ⟨((s.data.dropWhile isPyWhitespace).reverse.dropWhile isPyWhitespace).reverse⟩

/-- One envelope event yielded by `ChatAgentService.run_streaming`: the
dictionaries with `"type"` equal to `"token"`, `"end"` or `"error"`. -/
inductive AgentEvent
  | token (tok : String) (token_index : Nat) (context_id : String)
  | endEv (context_id : String) (final_output : String)
  | errorEv (context_id : Option String) (error_code : String) (message : String)
deriving DecidableEq, Repr

/-- The behaviour of one `Runner.run_streamed` invocation: the text deltas it
yields in order, then either normal completion with `final_output`
(`Except.ok`) or an exception whose `str(e)` text is carried by
`Except.error`. -/
structure RunnerBehavior where
  deltas : List String
  outcome : Except String String
deriving Repr

/-- The delta-to-token loop of `run_streaming` (chat_agent.py lines 184-197):
each delta that is non-empty after `strip()` becomes a token event at the
current index and advances the counter; whitespace-only deltas are skipped
without advancing the counter. -/
def emitTokens (deltas : List String) (idx : Nat) (ctx : String) : List AgentEvent :=
  match deltas with
  | [] => []
  | d :: rest =>
    if pyStrip d != "" then
      .token d idx ctx :: emitTokens rest (idx + 1) ctx
    else
      emitTokens rest idx ctx

/-- `ChatAgentService.run_streaming(message, context_id, last_token_index)`:
the full list of envelope events yielded for one run whose model runner
behaves as `r`.  On success the token events are followed by exactly one end
event with `context_id or "default"` and the runner's `final_output`; on an
exception the token events yielded so far are followed by exactly one error
event with the raw `context_id`, error code `"STREAMING_ERROR"`, and
`message = str(e)` (chat_agent.py lines 173-225). -/
def runStreaming (context_id : Option String) (last_token_index : Nat)
    (r : RunnerBehavior) : List AgentEvent :=
  match r.outcome with
  | .ok final =>
      emitTokens r.deltas last_token_index (context_id.getD "default") ++
        [.endEv (context_id.getD "default") final]
  | .error e =>
      emitTokens r.deltas last_token_index (context_id.getD "default") ++
        [.errorEv context_id "STREAMING_ERROR" e]

/-- Session lifecycle status as stored in `active_connections` entries. -/
inductive SessStatus
  | active
  | completed
  | error
deriving DecidableEq, Repr

/-- One entry of `StreamingService.active_connections` (streaming_service.py
lines 46-51). -/
structure Session where
  context_id : Option String
  last_token_index : Nat
  created_at : Nat
  status : SessStatus
deriving DecidableEq, Repr

/-- The in-memory registry `active_connections`: a Python dict modelled as an
association list keyed by connection id. -/
abbrev Registry := List (String × Session)

/-- Dict lookup `active_connections[k]` (as an option). -/
def regGet (reg : Registry) (k : String) : Option Session :=
  match reg with
  | [] => none
  | p :: rest => if p.1 == k then some p.2 else regGet rest k

/-- Dict assignment `active_connections[k] = v`: replace an existing entry in
place, otherwise append (Python dicts preserve insertion order and append new
keys at the end). -/
def regSet (reg : Registry) (k : String) (v : Session) : Registry :=
  match reg with
  | [] => [(k, v)]
  | p :: rest => if p.1 == k then (k, v) :: rest else p :: regSet rest k v

/-- In-place mutation of one field of `active_connections[k]`. -/
def regUpdate (reg : Registry) (k : String) (f : Session → Session) : Registry :=
  match reg with
  | [] => []
  | p :: rest =>
    if p.1 == k then (p.1, f p.2) :: regUpdate rest k f else p :: regUpdate rest k f

/-- Dict deletion `del active_connections[k]` (guarded by membership in the
source's `finally`). -/
def regErase (reg : Registry) (k : String) : Registry :=
  match reg with
  | [] => []
  | p :: rest => if p.1 == k then regErase rest k else p :: regErase rest k

/-- `connection_id = f"{context_id or 'default'}-{loop.time()}"`
(streaming_service.py line 45), with the clock reading rendered in decimal. -/
def mkConnectionId (context_id : Option String) (now : Nat) : String :=
  (context_id.getD "default") ++ "-" ++ natRepr now

/-- Escape of one character inside a JSON string literal as produced by
`json.dumps(..., ensure_ascii=False)`. -/
def jsonEscapeChar (c : Char) : List Char :=
  if c = '"' then ['\\', '"']
  else if c = '\\' then ['\\', '\\']
  else if c = '\n' then ['\\', 'n']
  else if c = '\r' then ['\\', 'r']
  else if c = '\t' then ['\\', 't']
  else if c = Char.ofNat 8 then ['\\', 'b']
  else if c = Char.ofNat 12 then ['\\', 'f']
  else if c.toNat < 32 then ['\\', 'u', '0', '0', digChar (c.toNat / 16), digChar (c.toNat % 16)]
  else [c]

/-- JSON string-body escaping of a whole string. -/
def jsonEscape (s : String) : String := ⟨List.flatMap s.data jsonEscapeChar⟩

/-- A JSON string literal: quoted escaped body. -/
def jsonQuote (s : String) : String := "\"" ++ jsonEscape s ++ "\""

/-- A nullable JSON string (`None` serializes as `null`). -/
def jsonOptStr : Option String → String
  | none => "null"
  | some s => jsonQuote s

/-- `json.dumps(event.model_dump(), ensure_ascii=False)` for the three
pydantic event models (chat_models.py), fields in declaration order and with
`json.dumps`'s default `", "` and `": "` separators. -/
def jsonOfEvent : AgentEvent → String
  | .token tok i c =>
      "\x7b\"token\": " ++ jsonQuote tok ++ ", \"token_index\": " ++ natRepr i ++
        ", \"context_id\": " ++ jsonQuote c ++ ", \"event_type\": \"token\"\x7d"
  | .endEv c fin =>
      "\x7b\"context_id\": " ++ jsonQuote c ++
        ", \"event_type\": \"end\", \"final_output\": " ++ jsonQuote fin ++ "\x7d"
  | .errorEv c code msg =>
      "\x7b\"context_id\": " ++ jsonOptStr c ++
        ", \"event_type\": \"error\", \"error_code\": " ++ jsonQuote code ++
        ", \"message\": " ++ jsonQuote msg ++ "\x7d"

/-- `StreamingService._format_sse_event`: one event maps to the single frame
`data: <json>\n\n` (streaming_service.py lines 122-133). -/
def formatSseEvent (ev : AgentEvent) : String :=
  "data: " ++ jsonOfEvent ev ++ "\n\n"

/-- One iteration of the event loop in `create_stream` (streaming_service.py
lines 57-101): yield the SSE frame for the event and apply its registry
effect (token: set `last_token_index` to the token's index; end: status
`completed`; error: status `error`). -/
def stepEvent (connId : String) (reg : Registry) (ev : AgentEvent) : String × Registry :=
  match ev with
  | .token _ i _ => (formatSseEvent ev, regUpdate reg connId (fun s => { s with last_token_index := i }))
  | .endEv _ _ => (formatSseEvent ev, regUpdate reg connId (fun s => { s with status := .completed }))
  | .errorEv _ _ _ => (formatSseEvent ev, regUpdate reg connId (fun s => { s with status := .error }))

/-- Process a list of envelope events through `create_stream`'s loop,
returning the yielded frames and the resulting registry. -/
def processEvents (connId : String) (evs : List AgentEvent) (reg : Registry) :
    List String × Registry :=
  match evs with
  | [] => ([], reg)
  | ev :: rest =>
    let st := stepEvent connId reg ev
    let pr := processEvents connId rest st.2
    (st.1 :: pr.1, pr.2)

/-- The registry as it stands mid-stream, after the `create_stream` generator
has processed the first `k` envelope events of a run (registration included,
`finally` cleanup not yet run). -/
def registryDuring (reg0 : Registry) (context_id : Option String) (now : Nat)
    (last_token_index : Nat) (r : RunnerBehavior) (k : Nat) : Registry :=
  let connId := mkConnectionId context_id now
  let reg1 := regSet reg0 connId
    ⟨context_id, last_token_index, now, .active⟩
  (processEvents connId ((runStreaming context_id last_token_index r).take k) reg1).2

/-- `StreamingService.create_stream(message, context_id, last_token_index)`
consumed up to `k` events by the client: register the session, process the
first `k` envelope events (all of them when `k` is at least the run's
length — a consumer abandoning iteration earlier corresponds to smaller `k`),
then run the `finally` block, which deletes the registry entry
(streaming_service.py lines 45-120).  Returns the yielded SSE frames and the
final registry. -/
def createStreamUpTo (reg0 : Registry) (context_id : Option String) (now : Nat)
    (last_token_index : Nat) (r : RunnerBehavior) (k : Nat) : List String × Registry :=
  let connId := mkConnectionId context_id now
  let reg1 := regSet reg0 connId
    ⟨context_id, last_token_index, now, .active⟩
  let pr := processEvents connId ((runStreaming context_id last_token_index r).take k) reg1
  (pr.1, regErase pr.2 connId)

/-- `create_stream` fully drained by the consumer. -/
def createStream (reg0 : Registry) (context_id : Option String) (now : Nat)
    (last_token_index : Nat) (r : RunnerBehavior) : List String × Registry :=
  createStreamUpTo reg0 context_id now last_token_index r
    (runStreaming context_id last_token_index r).length

/-- The reaper's expiry test (streaming_service.py lines 169-172): status is
`active` and age strictly exceeds the timeout. -/
def isExpired (now timeout : Nat) (s : Session) : Bool :=
  s.status == .active && timeout < now - s.created_at

/-- `StreamingService.cleanup_abandoned_connections(timeout_seconds)`
(streaming_service.py lines 156-180): delete every entry whose status is
`active` and whose age strictly exceeds the timeout; return the remaining
registry and the number of entries removed. -/
def cleanupAbandoned (reg : Registry) (now timeout : Nat) : Registry × Nat :=
  match reg with
  | [] => ([], 0)
  | p :: rest =>
    let pr := cleanupAbandoned rest now timeout
    if isExpired now timeout p.2 then (pr.1, pr.2 + 1) else (p :: pr.1, pr.2)

/-- The reaper with its default timeout of 300 seconds. -/
def cleanupAbandonedDefault (reg : Registry) (now : Nat) : Registry × Nat :=
  cleanupAbandoned reg now 300

/-- Event classifiers. -/
def isToken : AgentEvent → Bool
  | .token _ _ _ => true
  | _ => false

def isEnd : AgentEvent → Bool
  | .endEv _ _ => true
  | _ => false

def isError : AgentEvent → Bool
  | .errorEv _ _ _ => true
  | _ => false

/-- The context identifier carried by an envelope (`none` when the error
envelope's `context_id` is `null`). -/
def envCtx : AgentEvent → Option String
  | .token _ _ c => some c
  | .endEv c _ => some c
  | .errorEv c _ _ => c

/-- The `token_index` values of the token envelopes of a run, in emission
order. -/
def tokenIndices (l : List AgentEvent) : List Nat :=
  l.filterMap (fun ev => match ev with
    | .token _ i _ => some i
    | _ => none)

/-- Number of deltas that survive the whitespace filter. -/
def nonWsCount (deltas : List String) : Nat :=
  List.countP (fun d => pyStrip d != "") deltas

/-- The `message` fields of the error envelopes of a run, in emission order. -/
def errMessages (l : List AgentEvent) : List String :=
  l.filterMap (fun ev => match ev with
    | .errorEv _ _ m => some m
    | _ => none)

/-! ## Helper lemmas -/

theorem digChar_ne_newline (k : Nat) : digChar k ≠ '\n' := by
  unfold digChar; split <;> decide

theorem digVal_digChar (k : Nat) (h : k < 10) : digVal (digChar k) = k := by
  interval_cases k <;> decide

theorem natReprAux_not_newline : ∀ (fuel n : Nat), '\n' ∉ natReprAux fuel n := by
  intro fuel
  induction fuel with
  | zero => intro n; simp [natReprAux]
  | succ f ih =>
    intro n
    unfold natReprAux
    split
    · intro hmem
      simp only [List.mem_singleton] at hmem
      exact digChar_ne_newline n hmem.symm
    · intro hmem
      rcases List.mem_append.mp hmem with h | h
      · exact ih _ h
      · simp only [List.mem_singleton] at h
        exact digChar_ne_newline _ h.symm

theorem natRepr_not_newline (n : Nat) : '\n' ∉ (natRepr n).data :=
  natReprAux_not_newline (n + 1) n

theorem parseDigits_append (l : List Char) (c : Char) :
    parseDigits (l ++ [c]) = parseDigits l * 10 + digVal c := by
  simp [parseDigits, List.foldl_append]

theorem parseDigits_natReprAux : ∀ (fuel n : Nat), n < fuel →
    parseDigits (natReprAux fuel n) = n := by
  intro fuel
  induction fuel with
  | zero => intro n h; omega
  | succ f ih =>
    intro n hn
    unfold natReprAux
    split
    · next h10 =>
      simp only [parseDigits, List.foldl]
      rw [Nat.zero_mul, Nat.zero_add]
      exact digVal_digChar n h10
    · next h10 =>
      rw [parseDigits_append, ih (n / 10) (by omega), digVal_digChar (n % 10) (by omega)]
      omega

theorem natRepr_injective {a b : Nat} (h : natRepr a = natRepr b) : a = b := by
  have hd : natReprAux (a + 1) a = natReprAux (b + 1) b := congrArg String.data h
  calc a = parseDigits (natReprAux (a + 1) a) := (parseDigits_natReprAux _ a (by omega)).symm
    _ = parseDigits (natReprAux (b + 1) b) := by rw [hd]
    _ = b := parseDigits_natReprAux _ b (by omega)

theorem string_eq_of_data {a b : String} (h : a.data = b.data) : a = b := by
  cases a; cases b; exact congrArg String.mk h

theorem noNewline_append {a b : String} (ha : '\n' ∉ a.data) (hb : '\n' ∉ b.data) :
    '\n' ∉ (a ++ b).data := by
  rw [String.data_append]
  intro h
  rcases List.mem_append.mp h with h | h
  · exact ha h
  · exact hb h

theorem jsonEscapeChar_not_newline (c : Char) : '\n' ∉ jsonEscapeChar c := by
  unfold jsonEscapeChar
  split_ifs with h1 h2 h3 h4 h5 h6 h7 h8
  · decide
  · decide
  · decide
  · decide
  · decide
  · decide
  · decide
  · intro hmem
    simp only [List.mem_cons, List.mem_singleton, List.not_mem_nil, or_false] at hmem
    rcases hmem with h | h | h | h | h | h <;>
      first
        | exact absurd h (by decide)
        | exact digChar_ne_newline _ h.symm
  · intro hmem
    simp only [List.mem_singleton] at hmem
    subst hmem
    exact h8 (by decide)

theorem jsonEscape_not_newline (s : String) : '\n' ∉ (jsonEscape s).data := by
  intro hmem
  rcases List.mem_flatMap.mp hmem with ⟨c, _, hc⟩
  exact jsonEscapeChar_not_newline c hc

theorem jsonQuote_not_newline (s : String) : '\n' ∉ (jsonQuote s).data :=
  noNewline_append (noNewline_append (by decide) (jsonEscape_not_newline s)) (by decide)

theorem jsonOptStr_not_newline (o : Option String) : '\n' ∉ (jsonOptStr o).data := by
  cases o with
  | none => decide
  | some s => exact jsonQuote_not_newline s

theorem jsonOfEvent_not_newline (ev : AgentEvent) : '\n' ∉ (jsonOfEvent ev).data := by
  cases ev with
  | token tok i c =>
    exact noNewline_append (noNewline_append (noNewline_append (noNewline_append
      (noNewline_append (noNewline_append (by decide) (jsonQuote_not_newline tok))
        (by decide)) (natRepr_not_newline i)) (by decide)) (jsonQuote_not_newline c))
      (by decide)
  | endEv c fin =>
    exact noNewline_append (noNewline_append (noNewline_append (noNewline_append
      (by decide) (jsonQuote_not_newline c)) (by decide)) (jsonQuote_not_newline fin))
      (by decide)
  | errorEv c code msg =>
    exact noNewline_append (noNewline_append (noNewline_append (noNewline_append
      (noNewline_append (noNewline_append (by decide) (jsonOptStr_not_newline c))
        (by decide)) (jsonQuote_not_newline code)) (by decide)) (jsonQuote_not_newline msg))
      (by decide)

theorem emitTokens_all_token : ∀ (ds : List String) (i : Nat) (c : String),
    ∀ ev ∈ emitTokens ds i c, isToken ev = true := by
  intro ds
  induction ds with
  | nil => intro i c ev h; simp [emitTokens] at h
  | cons d rest ih =>
    intro i c ev h
    unfold emitTokens at h
    split at h
    · rcases List.mem_cons.mp h with rfl | h'
      · rfl
      · exact ih _ _ _ h'
    · exact ih _ _ _ h

theorem emitTokens_mem : ∀ (ds : List String) (i : Nat) (c : String),
    ∀ ev ∈ emitTokens ds i c, ∃ t j, ev = AgentEvent.token t j c := by
  intro ds
  induction ds with
  | nil => intro i c ev h; simp [emitTokens] at h
  | cons d rest ih =>
    intro i c ev h
    unfold emitTokens at h
    split at h
    · rcases List.mem_cons.mp h with rfl | h'
      · exact ⟨d, i, rfl⟩
      · exact ih _ _ _ h'
    · exact ih _ _ _ h

theorem emitTokens_tokenIndices : ∀ (ds : List String) (i : Nat) (c : String),
    tokenIndices (emitTokens ds i c) = List.range' i (nonWsCount ds) := by
  intro ds
  induction ds with
  | nil => intro i c; rfl
  | cons d rest ih =>
    intro i c
    unfold emitTokens nonWsCount
    rw [List.countP_cons]
    split
    · simp only [tokenIndices, List.filterMap_cons]
      exact congrArg (i :: ·) (ih (i + 1) c)
    · simp only [Nat.add_zero]
      exact ih i c

theorem emitTokens_length : ∀ (ds : List String) (i : Nat) (c : String),
    (emitTokens ds i c).length = nonWsCount ds := by
  intro ds
  induction ds with
  | nil => intro i c; rfl
  | cons d rest ih =>
    intro i c
    unfold emitTokens nonWsCount
    rw [List.countP_cons]
    split
    · simp only [List.length_cons]
      rw [ih (i + 1) c]
      rfl
    · simp only [Nat.add_zero]
      exact ih i c

theorem emitTokens_countP_isEnd (ds : List String) (i : Nat) (c : String) :
    List.countP isEnd (emitTokens ds i c) = 0 := by
  refine List.countP_eq_zero.mpr ?_
  intro ev hev
  have ht := emitTokens_all_token ds i c ev hev
  cases ev <;> simp_all [isToken, isEnd]

theorem emitTokens_countP_isError (ds : List String) (i : Nat) (c : String) :
    List.countP isError (emitTokens ds i c) = 0 := by
  refine List.countP_eq_zero.mpr ?_
  intro ev hev
  have ht := emitTokens_all_token ds i c ev hev
  cases ev <;> simp_all [isToken, isError]

theorem emitTokens_errMessages (ds : List String) (i : Nat) (c : String) :
    errMessages (emitTokens ds i c) = [] := by
  rw [errMessages, List.filterMap_eq_nil_iff]
  intro ev hev
  have ht := emitTokens_all_token ds i c ev hev
  cases ev <;> simp_all [isToken]

theorem regGet_regSet : ∀ (reg : Registry) (k : String) (v : Session),
    regGet (regSet reg k v) k = some v := by
  intro reg k v
  induction reg with
  | nil => simp [regSet, regGet, beq_self_eq_true]
  | cons p rest ih =>
    unfold regSet
    split
    · simp [regGet, beq_self_eq_true]
    · next h =>
      unfold regGet
      rw [if_neg h]
      exact ih

theorem regGet_regUpdate : ∀ (reg : Registry) (k : String) (f : Session → Session),
    regGet (regUpdate reg k f) k = Option.map f (regGet reg k) := by
  intro reg k f
  induction reg with
  | nil => rfl
  | cons p rest ih =>
    unfold regUpdate
    split
    · next h => simp [regGet, h]
    · next h =>
      unfold regGet
      rw [if_neg h, if_neg h]
      exact ih

theorem regGet_regErase : ∀ (reg : Registry) (k : String),
    regGet (regErase reg k) k = none := by
  intro reg k
  induction reg with
  | nil => rfl
  | cons p rest ih =>
    unfold regErase
    split
    · exact ih
    · next h =>
      unfold regGet
      rw [if_neg h]
      exact ih

theorem runStreaming_take_tokens (ctx : Option String) (off k : Nat) (r : RunnerBehavior)
    (hk : k ≤ nonWsCount r.deltas) :
    (runStreaming ctx off r).take k = (emitTokens r.deltas off (ctx.getD "default")).take k := by
  obtain ⟨ds, outcome⟩ := r
  have hlen : k ≤ (emitTokens ds off (ctx.getD "default")).length := by
    rw [emitTokens_length]
    exact hk
  cases outcome with
  | ok final => exact List.take_append_of_le_length hlen
  | error e => exact List.take_append_of_le_length hlen

theorem processEvents_token_prefix (connId cid : String) :
    ∀ (ds : List String) (k off : Nat) (reg : Registry) (s0 : Session),
    regGet reg connId = some s0 → k ≤ nonWsCount ds →
    regGet (processEvents connId ((emitTokens ds off cid).take k) reg).2 connId =
      some (if k = 0 then s0 else { s0 with last_token_index := off + k - 1 }) := by
  intro ds
  induction ds with
  | nil =>
    intro k off reg s0 hreg hk
    have hk0 : k = 0 := by simpa [nonWsCount] using hk
    subst hk0
    simpa [emitTokens, processEvents] using hreg
  | cons d rest ih =>
    intro k off reg s0 hreg hk
    unfold emitTokens
    unfold nonWsCount at hk
    rw [List.countP_cons] at hk
    split
    · next h =>
      rw [if_pos h] at hk
      cases k with
      | zero => simpa [processEvents] using hreg
      | succ k' =>
        rw [List.take_succ_cons]
        unfold processEvents stepEvent
        have hreg' : regGet (regUpdate reg connId fun s => { s with last_token_index := off })
            connId = some { s0 with last_token_index := off } := by
          rw [regGet_regUpdate, hreg]
          rfl
        have hrec := ih k' (off + 1)
          (regUpdate reg connId fun s => { s with last_token_index := off })
          { s0 with last_token_index := off } hreg' (by unfold nonWsCount; omega)
        cases k' with
        | zero => simpa using hrec
        | succ k'' =>
          have ha : off + 1 + (k'' + 1) - 1 = off + (k'' + 1 + 1) - 1 := by omega
          simp only [Nat.succ_ne_zero, if_false] at hrec ⊢
          rw [← ha]
          simpa using hrec
    · next h =>
      rw [if_neg h, Nat.add_zero] at hk
      exact ih k off reg s0 hreg hk

theorem cleanupAbandoned_fst : ∀ (reg : Registry) (now timeout : Nat),
    (cleanupAbandoned reg now timeout).1 =
      List.filter (fun p => !(isExpired now timeout p.2)) reg := by
  intro reg now timeout
  induction reg with
  | nil => rfl
  | cons p rest ih =>
    unfold cleanupAbandoned
    simp only [List.filter_cons]
    cases hp : isExpired now timeout p.2 with
    | true => simpa [hp] using ih
    | false => simpa [hp] using ih

theorem cleanupAbandoned_snd : ∀ (reg : Registry) (now timeout : Nat),
    (cleanupAbandoned reg now timeout).2 =
      List.countP (fun p => isExpired now timeout p.2) reg := by
  intro reg now timeout
  induction reg with
  | nil => rfl
  | cons p rest ih =>
    unfold cleanupAbandoned
    rw [List.countP_cons]
    cases hp : isExpired now timeout p.2 with
    | true => simpa [hp] using ih
    | false => simpa [hp] using ih

/-! ## Claim theorems -/

/-- C1: for every successful streaming run, the `token_index` values emitted
are exactly the consecutive integers `resume_offset, resume_offset + 1, …`
with no gaps or repeats (`List.range'` starting at the resume offset), and
the sequence is closed by exactly one `End` envelope — the last event — that
carries the run's full accumulated final output; no error envelope occurs and
everything before the terminal `End` is a token envelope. -/
theorem stream_success_consecutive_tokens_single_end (ctx : Option String) (off : Nat)
    (ds : List String) (final : String) :
    tokenIndices (runStreaming ctx off ⟨ds, Except.ok final⟩) =
      List.range' off (nonWsCount ds) ∧
    (runStreaming ctx off ⟨ds, Except.ok final⟩).getLast? =
      some (AgentEvent.endEv (ctx.getD "default") final) ∧
    List.countP isEnd (runStreaming ctx off ⟨ds, Except.ok final⟩) = 1 ∧
    List.countP isError (runStreaming ctx off ⟨ds, Except.ok final⟩) = 0 ∧
    ∀ ev ∈ (runStreaming ctx off ⟨ds, Except.ok final⟩).dropLast, isToken ev = true := by
  have hrun : runStreaming ctx off ⟨ds, Except.ok final⟩ =
      emitTokens ds off (ctx.getD "default") ++
        [AgentEvent.endEv (ctx.getD "default") final] := rfl
  rw [hrun]
  refine ⟨?_, List.getLast?_concat _, ?_, ?_, ?_⟩
  · unfold tokenIndices
    rw [List.filterMap_append]
    have h2 : List.filterMap (fun ev => match ev with
        | AgentEvent.token _ i _ => some i
        | _ => none) [AgentEvent.endEv (ctx.getD "default") final] = [] := rfl
    rw [h2, List.append_nil]
    exact emitTokens_tokenIndices ds off _
  · rw [List.countP_append, emitTokens_countP_isEnd]
    rfl
  · rw [List.countP_append, emitTokens_countP_isError]
    rfl
  · rw [List.dropLast_concat]
    exact emitTokens_all_token ds off _

/-- C2: for every streaming run in which delta production fails, the emitted
envelope sequence is a (possibly empty) prefix of token envelopes followed by
exactly one `Error` envelope as the very last event; there is no `End`
envelope and no event of any kind after the `Error`. -/
theorem stream_failure_token_prefix_single_error (ctx : Option String) (off : Nat)
    (ds : List String) (e : String) :
    (runStreaming ctx off ⟨ds, Except.error e⟩).getLast? =
      some (AgentEvent.errorEv ctx "STREAMING_ERROR" e) ∧
    (∀ ev ∈ (runStreaming ctx off ⟨ds, Except.error e⟩).dropLast, isToken ev = true) ∧
    List.countP isError (runStreaming ctx off ⟨ds, Except.error e⟩) = 1 ∧
    List.countP isEnd (runStreaming ctx off ⟨ds, Except.error e⟩) = 0 := by
  have hrun : runStreaming ctx off ⟨ds, Except.error e⟩ =
      emitTokens ds off (ctx.getD "default") ++
        [AgentEvent.errorEv ctx "STREAMING_ERROR" e] := rfl
  rw [hrun]
  refine ⟨List.getLast?_concat _, ?_, ?_, ?_⟩
  · rw [List.dropLast_concat]
    exact emitTokens_all_token ds off _
  · rw [List.countP_append, emitTokens_countP_isError]
    rfl
  · rw [List.countP_append, emitTokens_countP_isEnd]
    rfl

/-- C3 counterexample: the claim says the underlying exception's text is
never included in the `Error` envelope's `message`; but for a run whose model
runner raises an exception with text `"ValueError: bad state in layer 7"`,
the single error envelope's `message` field is exactly that text
(chat_agent.py line 224 sets `"message": str(e)`). -/
theorem error_message_contains_exception_text :
    errMessages (runStreaming none 0 ⟨[], Except.error "ValueError: bad state in layer 7"⟩) =
      ["ValueError: bad state in layer 7"] := rfl

/-- C3 (amended): for every exception raised during a streaming run, the
orchestrator emits a single `Error` envelope whose `error_code` is the fixed
generic string `"STREAMING_ERROR"`, but whose `message` field is exactly the
text of the underlying exception (`str(e)`) — the exception detail is
included, not suppressed. -/
theorem stream_error_generic_code_exception_message (ctx : Option String) (off : Nat)
    (ds : List String) (e : String) :
    (runStreaming ctx off ⟨ds, Except.error e⟩).getLast? =
      some (AgentEvent.errorEv ctx "STREAMING_ERROR" e) ∧
    errMessages (runStreaming ctx off ⟨ds, Except.error e⟩) = [e] := by
  have hrun : runStreaming ctx off ⟨ds, Except.error e⟩ =
      emitTokens ds off (ctx.getD "default") ++
        [AgentEvent.errorEv ctx "STREAMING_ERROR" e] := rfl
  rw [hrun]
  constructor
  · exact List.getLast?_concat _
  · unfold errMessages
    rw [List.filterMap_append]
    have h1 : errMessages (emitTokens ds off (ctx.getD "default")) = [] :=
      emitTokens_errMessages ds off _
    unfold errMessages at h1
    rw [h1, List.nil_append]
    rfl

/-- C4 counterexample: the claim says that after `n` delivered token
envelopes the registry entry's `last_token_index` equals `resume_offset + n`;
but in the run with resume offset `0` delivering the single token `"Hi"`
(index `0`), the registry entry holds `0`, not `0 + 1`: the source stores the
index of the last emitted token, which lags the claimed value by one. -/
theorem registry_offset_after_one_token_is_zero :
    (regGet (registryDuring [] none 0 0 ⟨["Hi"], Except.ok "Hi"⟩ 1)
        (mkConnectionId none 0)).map Session.last_token_index = some 0 ∧
    (regGet (registryDuring [] none 0 0 ⟨["Hi"], Except.ok "Hi"⟩ 1)
        (mkConnectionId none 0)).map Session.last_token_index ≠ some (0 + 1) := by
  constructor
  · rfl
  · decide

/-- C4 (amended): the registry entry's `last_token_index` starts at the
resume offset supplied by the caller (or 0 by default) and is set to the
index of each delivered token envelope, so after `n` delivered token
envelopes it equals the resume offset when `n = 0` and `resume_offset + n - 1`
(the index of the last delivered token) when `n ≥ 1`; in particular it never
decreases. -/
theorem registry_offset_tracks_last_delivered_token (reg0 : Registry)
    (ctx : Option String) (now off k : Nat) (r : RunnerBehavior)
    (hk : k ≤ nonWsCount r.deltas) :
    regGet (registryDuring reg0 ctx now off r k) (mkConnectionId ctx now) =
      some ⟨ctx, if k = 0 then off else off + k - 1, now, SessStatus.active⟩ := by
  simp only [registryDuring]
  rw [runStreaming_take_tokens ctx off k r hk]
  have hreg1 := regGet_regSet reg0 (mkConnectionId ctx now) ⟨ctx, off, now, .active⟩
  have hres := processEvents_token_prefix (mkConnectionId ctx now) (ctx.getD "default")
    r.deltas k off _ _ hreg1 hk
  cases k with
  | zero => simpa using hres
  | succ k' => simpa using hres

/-- C4 witness: instantiation at resume offset 3 with deltas
`["a", " ", "b"]` (two non-whitespace tokens) fully delivered (`k = 2`): the
registry entry holds `3 + 2 - 1 = 4`. -/
theorem registry_offset_tracks_last_delivered_token_witness :
    2 ≤ nonWsCount ["a", " ", "b"] ∧
    regGet (registryDuring [] none 5 3 ⟨["a", " ", "b"], Except.ok "ab"⟩ 2)
        (mkConnectionId none 5) =
      some ⟨none, if 2 = 0 then 3 else 3 + 2 - 1, 5, SessStatus.active⟩ :=
  ⟨by decide,
    registry_offset_tracks_last_delivered_token [] none 5 3 2
      ⟨["a", " ", "b"], Except.ok "ab"⟩ (by decide)⟩

/-- C5: whenever a stream finishes — fully drained (`createStream`) or
abandoned by the consumer after any number `k` of consumed events
(`createStreamUpTo`) — the `finally` cleanup removes the session's entry from
the registry: looking up the run's connection id in the final registry yields
nothing. -/
theorem stream_registry_entry_always_released (reg0 : Registry) (ctx : Option String)
    (now off k : Nat) (r : RunnerBehavior) :
    regGet (createStreamUpTo reg0 ctx now off r k).2 (mkConnectionId ctx now) = none ∧
    regGet (createStream reg0 ctx now off r).2 (mkConnectionId ctx now) = none :=
  ⟨regGet_regErase _ _, regGet_regErase _ _⟩

/-- C6 counterexample: two streaming attempts with no conversation identifier
whose registrations observe the same event-loop clock reading (here `100`)
receive the same `connection_id`, and the second registration overwrites the
first attempt's registry entry: after both registrations the registry holds a
single entry carrying the second attempt's session data. -/
theorem connection_id_collision_overwrites_entry :
    mkConnectionId none 100 = mkConnectionId none 100 ∧
    (⟨none, 0, 100, SessStatus.active⟩ : Session) ≠ ⟨none, 7, 100, SessStatus.active⟩ ∧
    regGet (regSet (regSet [] (mkConnectionId none 100) ⟨none, 0, 100, SessStatus.active⟩)
        (mkConnectionId none 100) ⟨none, 7, 100, SessStatus.active⟩)
        (mkConnectionId none 100) = some ⟨none, 7, 100, SessStatus.active⟩ ∧
    (regSet (regSet [] (mkConnectionId none 100) ⟨none, 0, 100, SessStatus.active⟩)
        (mkConnectionId none 100) ⟨none, 7, 100, SessStatus.active⟩).length = 1 := by
  refine ⟨rfl, by decide, rfl, rfl⟩

/-- C6 (amended): `connection_id` is not unique per attempt; it is the
deterministic string `"{context_id or 'default'}-{clock reading}"`, so for a
fixed context two attempts receive distinct connection ids exactly when their
registration clock readings differ, and attempts sharing context and clock
reading collide (the later registration overwriting the earlier entry). -/
theorem connection_id_unique_iff_clock_differs (ctx : Option String) (t t' : Nat) :
    mkConnectionId ctx t = mkConnectionId ctx t' ↔ t = t' := by
  constructor
  · intro h
    have hd : ((ctx.getD "default") ++ "-").data ++ (natRepr t).data =
        ((ctx.getD "default") ++ "-").data ++ (natRepr t').data := by
      have h1 := congrArg String.data h
      simpa only [mkConnectionId, String.data_append, List.append_assoc] using h1
    have h2 : (natRepr t).data = (natRepr t').data := List.append_cancel_left hd
    exact natRepr_injective (string_eq_of_data h2)
  · intro h
    rw [h]

/-- C7: `reapExpired` (`cleanup_abandoned_connections`) removes exactly the
registry entries whose status is `active` and whose age strictly exceeds the
timeout, leaves every other entry unchanged (the survivors are precisely the
filtered original registry, in order), and returns the number of entries
removed; a second sweep at the same instant removes 0 entries; the default
timeout is 300; and an active session registered at `t = 0` reaped at
`t = 301` with timeout `300` is removed with count `1`. -/
theorem reap_removes_exactly_expired_active (reg : Registry) (now timeout : Nat) :
    (cleanupAbandoned reg now timeout).1 =
      List.filter (fun p => !(isExpired now timeout p.2)) reg ∧
    (cleanupAbandoned reg now timeout).2 =
      List.countP (fun p => isExpired now timeout p.2) reg ∧
    (cleanupAbandoned (cleanupAbandoned reg now timeout).1 now timeout).2 = 0 ∧
    cleanupAbandonedDefault reg now = cleanupAbandoned reg now 300 ∧
    (cleanupAbandoned [("c1-0", ⟨some "c1", 0, 0, SessStatus.active⟩)] 301 300).2 = 1 ∧
    (cleanupAbandoned [("c1-0", ⟨some "c1", 0, 0, SessStatus.active⟩)] 301 300).1 = [] := by
  refine ⟨cleanupAbandoned_fst reg now timeout, cleanupAbandoned_snd reg now timeout,
    ?_, rfl, rfl, rfl⟩
  rw [cleanupAbandoned_snd, cleanupAbandoned_fst]
  refine List.countP_eq_zero.mpr ?_
  intro p hp
  have h2 := (List.mem_filter.mp hp).2
  simp only [Bool.not_eq_true'] at h2
  simp [h2]

/-- C8: a whitespace-only delta (empty after `strip()`) produces no token
envelope and does not advance the token counter: the events of a delta
sequence starting with such a delta are exactly the events of the remaining
deltas numbered from the same index, so the next non-whitespace delta
receives the index the whitespace delta would otherwise have taken. -/
theorem whitespace_delta_emits_nothing (d : String) (rest : List String) (idx : Nat)
    (cid : String) (h : pyStrip d = "") :
    emitTokens (d :: rest) idx cid = emitTokens rest idx cid := by
  have hd : emitTokens (d :: rest) idx cid =
      if pyStrip d != "" then
        AgentEvent.token d idx cid :: emitTokens rest (idx + 1) cid
      else emitTokens rest idx cid := rfl
  rw [hd, if_neg (by simp [h])]

/-- C8 witness: the delta `" \t"` strips to empty, and is skipped without
consuming token index 5. -/
theorem whitespace_delta_emits_nothing_witness :
    pyStrip " \t" = "" ∧
    emitTokens (" \t" :: ["a"]) 5 "default" = emitTokens ["a"] 5 "default" :=
  ⟨rfl, whitespace_delta_emits_nothing " \t" ["a"] 5 "default" rfl⟩

/-- C9: encoding any envelope for transport yields exactly one frame of the
form `data: <json>` terminated by a blank line, where the JSON payload
contains no newline character (embedded newlines are escaped by the JSON
serializer), so the frame's only newlines are its two-newline terminator. -/
theorem sse_frame_single_terminator (ev : AgentEvent) :
    formatSseEvent ev = "data: " ++ jsonOfEvent ev ++ "\n\n" ∧
    '\n' ∉ (jsonOfEvent ev).data ∧
    ∃ p, (formatSseEvent ev).data = p ++ ['\n', '\n'] ∧ '\n' ∉ p := by
  refine ⟨rfl, jsonOfEvent_not_newline ev,
    ("data: " ++ jsonOfEvent ev).data, ?_, noNewline_append (by decide) (jsonOfEvent_not_newline ev)⟩
  show (("data: " ++ jsonOfEvent ev) ++ "\n\n").data = _
  rw [String.data_append]

/-- C10: in a stateless run (no conversation identifier), every token and end
envelope carries the literal context `"default"`, while an error envelope
carries a null (`none`) context instead. -/
theorem stateless_run_context_ids (off : Nat) (r : RunnerBehavior) (ev : AgentEvent)
    (h : ev ∈ runStreaming none off r) :
    (isError ev = false → envCtx ev = some "default") ∧
    (isError ev = true → envCtx ev = none) := by
  obtain ⟨ds, outcome⟩ := r
  cases outcome with
  | ok final =>
    have hrun : runStreaming none off ⟨ds, Except.ok final⟩ =
        emitTokens ds off "default" ++ [AgentEvent.endEv "default" final] := rfl
    rw [hrun] at h
    rcases List.mem_append.mp h with h' | h'
    · obtain ⟨t, j, rfl⟩ := emitTokens_mem ds off "default" ev h'
      exact ⟨fun _ => rfl, fun hc => by simp [isError] at hc⟩
    · simp only [List.mem_singleton] at h'
      subst h'
      exact ⟨fun _ => rfl, fun hc => by simp [isError] at hc⟩
  | error e =>
    have hrun : runStreaming none off ⟨ds, Except.error e⟩ =
        emitTokens ds off "default" ++ [AgentEvent.errorEv none "STREAMING_ERROR" e] := rfl
    rw [hrun] at h
    rcases List.mem_append.mp h with h' | h'
    · obtain ⟨t, j, rfl⟩ := emitTokens_mem ds off "default" ev h'
      exact ⟨fun _ => rfl, fun hc => by simp [isError] at hc⟩
    · simp only [List.mem_singleton] at h'
      subst h'
      exact ⟨fun hc => by simp [isError] at hc, fun _ => rfl⟩

/-- C10 witness: in the stateless run with one delta `"Hi"` that fails after
it, the token envelope carries `"default"` and the error envelope carries a
null context. -/
theorem stateless_run_context_ids_witness :
    ((AgentEvent.token "Hi" 0 "default") ∈
      runStreaming none 0 ⟨["Hi"], Except.error "boom"⟩) ∧
    ((AgentEvent.errorEv none "STREAMING_ERROR" "boom") ∈
      runStreaming none 0 ⟨["Hi"], Except.error "boom"⟩) ∧
    envCtx (AgentEvent.token "Hi" 0 "default") = some "default" ∧
    envCtx (AgentEvent.errorEv none "STREAMING_ERROR" "boom") = none :=
  ⟨by decide, by decide,
    (stateless_run_context_ids 0 ⟨["Hi"], Except.error "boom"⟩
      (AgentEvent.token "Hi" 0 "default") (by decide)).1 rfl,
    (stateless_run_context_ids 0 ⟨["Hi"], Except.error "boom"⟩
      (AgentEvent.errorEv none "STREAMING_ERROR" "boom") (by decide)).2 rfl⟩

end ChatWait
